import Mathlib

/-!
Verification of the packet-test repository: a UDP path-quality measurement
tool (client, echo server, statistics aggregator, CSV export, HTML plot).

The development shallowly embeds the Go source:
* byte buffers become `List Nat` (each entry one byte),
* `uint64` values become `Nat` (with explicit bounds where overflow matters),
* `int64` values become `ℤ`,
* `float64` values become `ℚ` (the latency arithmetic in the source is
  division/addition/comparison of millisecond quantities; the embedding
  computes them exactly),
* the mutex-protected `Stats` struct becomes a pure state record with
  explicit state-passing operations.

The repository contains a basic variant (16-byte packet header, 5-column CSV)
and an extended variant (24-byte header with a server-processing field,
late-packet threshold, 6-column CSV, name-based CSV column lookup in the
plot generator).  The namespaces `Basic` and `Ext` hold the two codecs, and
the plot parsers are modelled in `PlotFixed` (positional column access) and
`PlotNamed` (header-name lookup).
-/

namespace PacketTest

/-! ## Byte-level primitives (Go `encoding/binary`, big-endian) -/

/-- Big-endian byte decomposition of a 64-bit word, as written by Go
`binary.BigEndian.PutUint64`: most significant byte first. -/
def toBE8 (v : Nat) : List Nat :=
  [v / 2 ^ 56 % 256, v / 2 ^ 48 % 256, v / 2 ^ 40 % 256, v / 2 ^ 32 % 256,
   v / 2 ^ 24 % 256, v / 2 ^ 16 % 256, v / 2 ^ 8 % 256, v % 256]

/-- Big-endian read of a byte list, as performed by Go
`binary.BigEndian.Uint64` on an 8-byte slice. -/
def fromBE8 (bs : List Nat) : Nat :=
  bs.foldl (fun acc b => acc * 256 + b) 0

/-- Overwriting the slice `buf[off : off+bs.length]` with `bs`, the effect of
a Go `PutUint64(buf[off:off+8], v)` call on the enclosing buffer. -/
def putBytes (buf : List Nat) (off : Nat) (bs : List Nat) : List Nat :=
  buf.take off ++ bs ++ buf.drop (off + bs.length)

/-- Reinterpretation `uint64(i)` of a signed 64-bit value for transport
(two's complement bit pattern). -/
def toUInt64Bits (i : ℤ) : Nat :=
  (i % (2 ^ 64 : ℤ)).toNat

/-- Reinterpretation `int64(n)` of a 64-bit word as a signed value
(two's complement). -/
def toInt64Bits (n : Nat) : ℤ :=
  if n < 2 ^ 63 then (n : ℤ) else (n : ℤ) - 2 ^ 64

theorem toBE8_length (v : Nat) : (toBE8 v).length = 8 := rfl

theorem fromBE8_toBE8 (v : Nat) (h : v < 2 ^ 64) : fromBE8 (toBE8 v) = v := by
  simp only [toBE8, fromBE8, List.foldl]
  omega

theorem toInt64Bits_toUInt64Bits (i : ℤ) (h1 : -2 ^ 63 ≤ i) (h2 : i < 2 ^ 63) :
    toInt64Bits (toUInt64Bits i) = i := by
  simp only [toInt64Bits, toUInt64Bits]
  split <;> omega

namespace Basic

/-! ## Basic variant packet codec (`packet.go`, 16-byte header) -/

def SeqNumSize : Nat := 8
def TimestampSize : Nat := 8
def HeaderSize : Nat := SeqNumSize + TimestampSize

/-- Packet of the basic variant: sequence number, client send timestamp
(Unix nanoseconds), payload. -/
structure Packet where
  SeqNum : Nat
  Timestamp : ℤ
  Payload : List Nat
deriving DecidableEq

/-- Encoding from `Packet.Encode`: allocate a zero buffer of `size` bytes and
write the two big-endian 64-bit header fields at offsets 0 and 8; the rest
stays zero padding (the payload content is not copied). -/
def Packet.encode (p : Packet) (size : Nat) : List Nat :=
  let buf := List.replicate size 0
  let buf := putBytes buf 0 (toBE8 p.SeqNum)
  let buf := putBytes buf 8 (toBE8 (toUInt64Bits p.Timestamp))
  buf

/-- Decoding from `DecodePacket`: `none` for a buffer shorter than the
header, otherwise the fields read from the fixed big-endian offsets with the
remainder as payload. -/
def DecodePacket (data : List Nat) : Option Packet :=
  if data.length < HeaderSize then none
  else some
    { SeqNum := fromBE8 (data.take 8)
      Timestamp := toInt64Bits (fromBE8 ((data.drop 8).take 8))
      Payload := data.drop HeaderSize }

theorem encode_eq_append16 (p : Packet) (size : Nat) (h : HeaderSize ≤ size) :
    p.encode size =
      toBE8 p.SeqNum ++ toBE8 (toUInt64Bits p.Timestamp) ++
        List.replicate (size - 16) 0 := by
  have h16 : (16 : Nat) ≤ size := h
  simp only [Packet.encode, putBytes, toBE8_length, List.take_zero,
    List.drop_replicate, List.nil_append, Nat.zero_add]
  rw [List.take_left' (toBE8_length p.SeqNum),
    show (8 : Nat) + 8 = (toBE8 p.SeqNum).length + 8 by rw [toBE8_length],
    List.drop_append, List.drop_replicate]
  simp [List.append_assoc]
  omega

end Basic

namespace Ext

/-! ## Extended variant packet codec (24-byte header with server time) -/

def SeqNumSize : Nat := 8
def TimestampSize : Nat := 8
def ProcTimeSize : Nat := 8
def HeaderSize : Nat := SeqNumSize + TimestampSize + ProcTimeSize

/-- Packet of the extended variant: sequence number, client send timestamp,
server processing duration (both Unix nanoseconds), payload. -/
structure Packet where
  SeqNum : Nat
  Timestamp : ℤ
  ServerProcNs : ℤ
  Payload : List Nat
deriving DecidableEq

/-- Encoding from the extended `Packet.Encode`: zero buffer of `size` bytes,
three big-endian 64-bit header fields at offsets 0, 8 and 16. -/
def Packet.encode (p : Packet) (size : Nat) : List Nat :=
  let buf := List.replicate size 0
  let buf := putBytes buf 0 (toBE8 p.SeqNum)
  let buf := putBytes buf 8 (toBE8 (toUInt64Bits p.Timestamp))
  let buf := putBytes buf 16 (toBE8 (toUInt64Bits p.ServerProcNs))
  buf

/-- Decoding from the extended `DecodePacket`. -/
def DecodePacket (data : List Nat) : Option Packet :=
  if data.length < HeaderSize then none
  else some
    { SeqNum := fromBE8 (data.take 8)
      Timestamp := toInt64Bits (fromBE8 ((data.drop 8).take 8))
      ServerProcNs := toInt64Bits (fromBE8 ((data.drop 16).take 8))
      Payload := data.drop HeaderSize }

theorem encode_eq_append24 (p : Packet) (size : Nat) (h : HeaderSize ≤ size) :
    p.encode size =
      toBE8 p.SeqNum ++ toBE8 (toUInt64Bits p.Timestamp) ++
        toBE8 (toUInt64Bits p.ServerProcNs) ++ List.replicate (size - 24) 0 := by
  have h24 : (24 : Nat) ≤ size := h
  simp only [Packet.encode, putBytes, toBE8_length, List.take_zero,
    List.drop_replicate, List.nil_append, Nat.zero_add]
  rw [List.take_left' (toBE8_length p.SeqNum),
    show (8 : Nat) + 8 = (toBE8 p.SeqNum).length + 8 by rw [toBE8_length],
    List.drop_append, List.drop_replicate]
  have hab : (toBE8 p.SeqNum ++ toBE8 (toUInt64Bits p.Timestamp)).length = 16 := by
    simp [toBE8_length]
  rw [List.take_left' hab,
    show (16 : Nat) + 8 =
      (toBE8 p.SeqNum ++ toBE8 (toUInt64Bits p.Timestamp)).length + 8 by rw [hab],
    List.drop_append, List.drop_replicate]
  simp [List.append_assoc]
  omega

end Ext

/-! ## Codec theorems -/

theorem fromBE8_take_eq (l : List Nat) (h : 8 ≤ l.length) :
    fromBE8 (l.take 8) =
      l.getD 0 0 * 2 ^ 56 + l.getD 1 0 * 2 ^ 48 + l.getD 2 0 * 2 ^ 40 +
      l.getD 3 0 * 2 ^ 32 + l.getD 4 0 * 2 ^ 24 + l.getD 5 0 * 2 ^ 16 +
      l.getD 6 0 * 2 ^ 8 + l.getD 7 0 := by
  rcases l with _ | ⟨b0, _ | ⟨b1, _ | ⟨b2, _ | ⟨b3, _ | ⟨b4, _ | ⟨b5, _ | ⟨b6, _ | ⟨b7, rest⟩⟩⟩⟩⟩⟩⟩⟩ <;>
      simp at h ⊢
  simp [fromBE8]
  ring

theorem getD_drop_eq (l : List Nat) (n i d : Nat) :
    (l.drop n).getD i d = l.getD (n + i) d := by
  simp [List.getD_eq_getElem?_getD, List.getElem?_drop]

theorem Basic.headerSize_eq_16 : HeaderSize = 16 := rfl

theorem Ext.headerSize_eq_24 : HeaderSize = 24 := rfl

theorem Basic.decode_encode_roundtrip16 (p : Packet) (size : Nat) (hsize : HeaderSize ≤ size)
    (hseq : p.SeqNum < 2 ^ 64) (ht1 : -2 ^ 63 ≤ p.Timestamp)
    (ht2 : p.Timestamp < 2 ^ 63) :
    DecodePacket (p.encode size) =
      some { SeqNum := p.SeqNum, Timestamp := p.Timestamp,
             Payload := List.replicate (size - 16) 0 } := by
  rw [headerSize_eq_16] at hsize
  rw [encode_eq_append16 p size (by rw [headerSize_eq_16]; exact hsize), List.append_assoc]
  have hlen : (toBE8 p.SeqNum ++ (toBE8 (toUInt64Bits p.Timestamp) ++
      List.replicate (size - 16) 0)).length = size := by
    simp [toBE8_length]
    omega
  unfold DecodePacket
  rw [if_neg (by rw [hlen, headerSize_eq_16]; omega)]
  rw [List.take_left' (toBE8_length _), List.drop_left' (toBE8_length _),
    List.take_left' (toBE8_length _), fromBE8_toBE8 _ hseq,
    fromBE8_toBE8 _ (by unfold toUInt64Bits; omega),
    toInt64Bits_toUInt64Bits _ ht1 ht2, headerSize_eq_16,
    show (16 : Nat) = (toBE8 p.SeqNum).length +
      ((toBE8 (toUInt64Bits p.Timestamp)).length + 0) from by
        rw [toBE8_length, toBE8_length],
    List.drop_append, List.drop_append, List.drop_zero]

theorem Ext.decode_encode_roundtrip24 (p : Packet) (size : Nat) (hsize : HeaderSize ≤ size)
    (hseq : p.SeqNum < 2 ^ 64) (ht1 : -2 ^ 63 ≤ p.Timestamp)
    (ht2 : p.Timestamp < 2 ^ 63) (hp1 : -2 ^ 63 ≤ p.ServerProcNs)
    (hp2 : p.ServerProcNs < 2 ^ 63) :
    DecodePacket (p.encode size) =
      some { SeqNum := p.SeqNum, Timestamp := p.Timestamp,
             ServerProcNs := p.ServerProcNs,
             Payload := List.replicate (size - 24) 0 } := by
  rw [headerSize_eq_24] at hsize
  rw [encode_eq_append24 p size (by rw [headerSize_eq_24]; exact hsize)]
  rw [show toBE8 p.SeqNum ++ toBE8 (toUInt64Bits p.Timestamp) ++
      toBE8 (toUInt64Bits p.ServerProcNs) ++ List.replicate (size - 24) 0 =
      toBE8 p.SeqNum ++ (toBE8 (toUInt64Bits p.Timestamp) ++
        (toBE8 (toUInt64Bits p.ServerProcNs) ++ List.replicate (size - 24) 0))
      from by simp [List.append_assoc]]
  have hlen : (toBE8 p.SeqNum ++ (toBE8 (toUInt64Bits p.Timestamp) ++
      (toBE8 (toUInt64Bits p.ServerProcNs) ++ List.replicate (size - 24) 0))).length
      = size := by
    simp [toBE8_length]
    omega
  unfold DecodePacket
  rw [if_neg (by rw [hlen, headerSize_eq_24]; omega)]
  rw [List.take_left' (toBE8_length _), List.drop_left' (toBE8_length _),
    List.take_left' (toBE8_length _), fromBE8_toBE8 _ hseq,
    fromBE8_toBE8 _ (by unfold toUInt64Bits; omega),
    toInt64Bits_toUInt64Bits _ ht1 ht2]
  rw [show (16 : Nat) = (toBE8 p.SeqNum).length + 8 from by rw [toBE8_length],
    List.drop_append, List.drop_left' (toBE8_length _),
    List.take_left' (toBE8_length _),
    fromBE8_toBE8 _ (by unfold toUInt64Bits; omega),
    toInt64Bits_toUInt64Bits _ hp1 hp2]
  rw [headerSize_eq_24,
    show (24 : Nat) = (toBE8 p.SeqNum).length +
      ((toBE8 (toUInt64Bits p.Timestamp)).length +
        ((toBE8 (toUInt64Bits p.ServerProcNs)).length + 0)) from by
      rw [toBE8_length, toBE8_length, toBE8_length],
    List.drop_append, List.drop_append, List.drop_append, List.drop_zero]

/-- C3: encoding a packet to any size at least the header size and decoding
the bytes recovers the sequence number and send timestamp exactly (and the
server-processing field in the extended 24-byte variant); the decoder never
returns `none` on such a buffer. -/
theorem claim_C3_encode_decode_roundtrip (seq : Nat) (ts proc : ℤ)
    (pay : List Nat) (sizeB sizeE : Nat)
    (hseq : seq < 2 ^ 64) (ht1 : -2 ^ 63 ≤ ts) (ht2 : ts < 2 ^ 63)
    (hp1 : -2 ^ 63 ≤ proc) (hp2 : proc < 2 ^ 63)
    (hsB : Basic.HeaderSize ≤ sizeB) (hsE : Ext.HeaderSize ≤ sizeE) :
    (∃ q, Basic.DecodePacket (Basic.Packet.encode ⟨seq, ts, pay⟩ sizeB) = some q ∧
      q.SeqNum = seq ∧ q.Timestamp = ts) ∧
    (∃ q, Ext.DecodePacket (Ext.Packet.encode ⟨seq, ts, proc, pay⟩ sizeE) = some q ∧
      q.SeqNum = seq ∧ q.Timestamp = ts ∧ q.ServerProcNs = proc) := by
  constructor
  · exact ⟨_, Basic.decode_encode_roundtrip16 ⟨seq, ts, pay⟩ sizeB hsB hseq ht1 ht2, rfl, rfl⟩
  · exact ⟨_, Ext.decode_encode_roundtrip24 ⟨seq, ts, proc, pay⟩ sizeE hsE hseq ht1 ht2 hp1 hp2,
      rfl, rfl, rfl⟩

/-- Witness for C3 at concrete inputs. -/
theorem claim_C3_encode_decode_roundtrip_witness :
    (∃ q, Basic.DecodePacket (Basic.Packet.encode ⟨7, 123456789, [1, 2, 3]⟩ 32) = some q ∧
      q.SeqNum = 7 ∧ q.Timestamp = 123456789) ∧
    (∃ q, Ext.DecodePacket (Ext.Packet.encode ⟨7, 123456789, 55, [1, 2, 3]⟩ 32) = some q ∧
      q.SeqNum = 7 ∧ q.Timestamp = 123456789 ∧ q.ServerProcNs = 55) :=
  claim_C3_encode_decode_roundtrip 7 123456789 55 [1, 2, 3] 32 32
    (by norm_num) (by norm_num) (by norm_num) (by norm_num) (by norm_num)
    (by norm_num [Basic.HeaderSize, Basic.SeqNumSize, Basic.TimestampSize])
    (by norm_num [Ext.HeaderSize, Ext.SeqNumSize, Ext.TimestampSize, Ext.ProcTimeSize])

/-- C4: on input shorter than the header size (16 bytes basic, 24 extended)
decode returns `none`; on input of at least header size it returns a packet
whose fields are the big-endian 64-bit values at the fixed offsets (bytes
0-7 the sequence number, bytes 8-15 the timestamp, bytes 16-23 the
server-processing time in the extended variant) and whose payload is the
remainder of the buffer. -/
theorem claim_C4_decode_short_none_fields_from_offsets (data : List Nat) :
    (data.length < 16 → Basic.DecodePacket data = none) ∧
    (16 ≤ data.length → Basic.DecodePacket data = some
      { SeqNum := data.getD 0 0 * 2 ^ 56 + data.getD 1 0 * 2 ^ 48 +
          data.getD 2 0 * 2 ^ 40 + data.getD 3 0 * 2 ^ 32 +
          data.getD 4 0 * 2 ^ 24 + data.getD 5 0 * 2 ^ 16 +
          data.getD 6 0 * 2 ^ 8 + data.getD 7 0
        Timestamp := toInt64Bits (data.getD 8 0 * 2 ^ 56 + data.getD 9 0 * 2 ^ 48 +
          data.getD 10 0 * 2 ^ 40 + data.getD 11 0 * 2 ^ 32 +
          data.getD 12 0 * 2 ^ 24 + data.getD 13 0 * 2 ^ 16 +
          data.getD 14 0 * 2 ^ 8 + data.getD 15 0)
        Payload := data.drop 16 }) ∧
    (data.length < 24 → Ext.DecodePacket data = none) ∧
    (24 ≤ data.length → Ext.DecodePacket data = some
      { SeqNum := data.getD 0 0 * 2 ^ 56 + data.getD 1 0 * 2 ^ 48 +
          data.getD 2 0 * 2 ^ 40 + data.getD 3 0 * 2 ^ 32 +
          data.getD 4 0 * 2 ^ 24 + data.getD 5 0 * 2 ^ 16 +
          data.getD 6 0 * 2 ^ 8 + data.getD 7 0
        Timestamp := toInt64Bits (data.getD 8 0 * 2 ^ 56 + data.getD 9 0 * 2 ^ 48 +
          data.getD 10 0 * 2 ^ 40 + data.getD 11 0 * 2 ^ 32 +
          data.getD 12 0 * 2 ^ 24 + data.getD 13 0 * 2 ^ 16 +
          data.getD 14 0 * 2 ^ 8 + data.getD 15 0)
        ServerProcNs := toInt64Bits (data.getD 16 0 * 2 ^ 56 + data.getD 17 0 * 2 ^ 48 +
          data.getD 18 0 * 2 ^ 40 + data.getD 19 0 * 2 ^ 32 +
          data.getD 20 0 * 2 ^ 24 + data.getD 21 0 * 2 ^ 16 +
          data.getD 22 0 * 2 ^ 8 + data.getD 23 0)
        Payload := data.drop 24 }) := by
  refine ⟨fun h => ?_, fun h => ?_, fun h => ?_, fun h => ?_⟩
  · unfold Basic.DecodePacket
    rw [if_pos (by simp [Basic.HeaderSize, Basic.SeqNumSize, Basic.TimestampSize]; omega)]
  · unfold Basic.DecodePacket
    rw [if_neg (by simp [Basic.HeaderSize, Basic.SeqNumSize, Basic.TimestampSize]; omega)]
    rw [fromBE8_take_eq data (by omega),
      fromBE8_take_eq (data.drop 8) (by simp; omega)]
    simp only [getD_drop_eq]
    norm_num [Basic.HeaderSize, Basic.SeqNumSize, Basic.TimestampSize]
  · unfold Ext.DecodePacket
    rw [if_pos (by simp [Ext.HeaderSize, Ext.SeqNumSize, Ext.TimestampSize,
      Ext.ProcTimeSize]; omega)]
  · unfold Ext.DecodePacket
    rw [if_neg (by simp [Ext.HeaderSize, Ext.SeqNumSize, Ext.TimestampSize,
      Ext.ProcTimeSize]; omega)]
    rw [fromBE8_take_eq data (by omega),
      fromBE8_take_eq (data.drop 8) (by simp; omega),
      fromBE8_take_eq (data.drop 16) (by simp; omega)]
    simp only [getD_drop_eq]
    norm_num [Ext.HeaderSize, Ext.SeqNumSize, Ext.TimestampSize, Ext.ProcTimeSize]

/-- Witness for C4: a 15-byte buffer decodes to `none` in the basic variant,
a 16-byte buffer decodes successfully there, and the extended variant
behaves likewise around its 24-byte bound. -/
theorem claim_C4_decode_short_none_fields_from_offsets_witness :
    Basic.DecodePacket (List.replicate 15 0) = none ∧
    Basic.DecodePacket (List.replicate 16 1) ≠ none ∧
    Ext.DecodePacket (List.replicate 23 0) = none ∧
    Ext.DecodePacket (List.replicate 24 1) ≠ none := by
  refine ⟨(claim_C4_decode_short_none_fields_from_offsets _).1 (by simp),
    ?_, (claim_C4_decode_short_none_fields_from_offsets _).2.2.1 (by simp), ?_⟩
  · rw [(claim_C4_decode_short_none_fields_from_offsets _).2.1 (by simp)]
    simp
  · rw [(claim_C4_decode_short_none_fields_from_offsets _).2.2.2 (by simp)]
    simp

/-! ## Statistics helper functions (`stats.go`) -/

/-- Value of Go `math.MaxFloat64`, used by the source as the initial value of
running minima before any sample arrives. -/
def maxFloat64 : ℚ := 2 ^ 1024 - 2 ^ 971

/-- Percentile of an already sorted sample, from `percentile` in the source:
minimum for `p <= 0`, maximum for `p >= 100`, otherwise linear interpolation
between the order statistics at `floor(pos)` and `ceil(pos)` where
`pos = (p/100) * (n-1)`. -/
def percentile (sorted : List ℚ) (p : ℚ) : ℚ :=
  if sorted.length = 0 then 0
  else if p ≤ 0 then sorted.getD 0 0
  else if 100 ≤ p then sorted.getD (sorted.length - 1) 0
  else
    let pos := (p / 100) * ((sorted.length - 1 : ℕ) : ℚ)
    let lower := (⌊pos⌋).toNat
    let upper := (⌈pos⌉).toNat
    if lower = upper then sorted.getD lower 0
    else
      let weight := pos - (lower : ℚ)
      sorted.getD lower 0 * (1 - weight) + sorted.getD upper 0 * weight

/-- Three percentiles of an unsorted sample, from `percentiles` in the
source: sort a copy (`sort.Float64s`), then apply `percentile` three times. -/
def percentiles (values : List ℚ) (pa pb pc : ℚ) : ℚ × ℚ × ℚ :=
  if values.length = 0 then (0, 0, 0)
  else
    let sorted := values.insertionSort (· ≤ ·)
    (percentile sorted pa, percentile sorted pb, percentile sorted pc)

/-- Mean of a sample, from `avg` in the source (0 on an empty sample). -/
def avg (values : List ℚ) : ℚ :=
  if values.length = 0 then 0
  else values.foldl (· + ·) 0 / (values.length : ℚ)

/-- Summary of a sample, from `calcStats` in the source: minimum (running
from `math.MaxFloat64`), mean, maximum (running from 0), and jitter as the
mean absolute deviation from the mean. -/
def calcStats (values : List ℚ) : ℚ × ℚ × ℚ × ℚ :=
  if values.length = 0 then (0, 0, 0, 0)
  else
    let mn := values.foldl (fun m v => if v < m then v else m) maxFloat64
    let mx := values.foldl (fun m v => if v > m then v else m) 0
    let sum := values.foldl (· + ·) 0
    let a := sum / (values.length : ℚ)
    let jitter := (values.foldl (fun acc v => acc + |v - a|) 0) / (values.length : ℚ)
    (mn, a, mx, jitter)

theorem sorted_head_le (l : List ℚ) (hs : l.Sorted (· ≤ ·)) :
    ∀ x ∈ l, l.getD 0 0 ≤ x := by
  rcases l with _ | ⟨a, t⟩
  · intro x hx
    simp at hx
  · rw [List.sorted_cons] at hs
    intro x hx
    rcases List.mem_cons.mp hx with h | h
    · simp [h]
    · simpa using hs.1 x h

theorem sorted_le_last (l : List ℚ) (hs : l.Sorted (· ≤ ·)) :
    ∀ x ∈ l, x ≤ l.getD (l.length - 1) 0 := by
  induction l with
  | nil => intro x hx; simp at hx
  | cons a t ih =>
    rw [List.sorted_cons] at hs
    intro x hx
    rcases t with _ | ⟨b, u⟩
    · simp at hx
      simp [hx]
    · have hlen : (a :: b :: u).length - 1 = (b :: u).length - 1 + 1 := by
        simp
      rw [hlen, List.getD_cons_succ]
      rcases List.mem_cons.mp hx with h | h
      · calc x = a := h
          _ ≤ b := hs.1 b (by simp)
          _ ≤ (b :: u).getD ((b :: u).length - 1) 0 := ih hs.2 b (by simp)
      · exact ih hs.2 x h

theorem getD_head_mem (l : List ℚ) (hne : l ≠ []) : l.getD 0 0 ∈ l := by
  rcases l with _ | ⟨a, t⟩
  · exact absurd rfl hne
  · simp

theorem getD_last_mem (l : List ℚ) (hne : l ≠ []) :
    l.getD (l.length - 1) 0 ∈ l := by
  induction l with
  | nil => exact absurd rfl hne
  | cons a t ih =>
    rcases t with _ | ⟨b, u⟩
    · simp
    · have hlen : (a :: b :: u).length - 1 = (b :: u).length - 1 + 1 := by
        simp
      rw [hlen, List.getD_cons_succ]
      exact List.mem_cons_of_mem a (ih (by simp))

/-- C2: on a non-empty sorted sample the percentile function returns the
minimum for `p <= 0`, the maximum for `p >= 100`, and otherwise the linear
interpolation between the order statistics at `floor(pos)` and `ceil(pos)`
with weight `pos - floor(pos)` where `pos = (p/100)*(n-1)`; in particular on
`[10, 20, 30, 40]` it yields p50 = 25, p90 = 37 and p100 = 40. -/
theorem claim_C2_percentile_interpolation (l : List ℚ) (p : ℚ)
    (hs : l.Sorted (· ≤ ·)) (hne : l ≠ []) :
    (p ≤ 0 → percentile l p ∈ l ∧ ∀ x ∈ l, percentile l p ≤ x) ∧
    (100 ≤ p → percentile l p ∈ l ∧ ∀ x ∈ l, x ≤ percentile l p) ∧
    (0 < p → p < 100 →
      percentile l p =
        (let pos := (p / 100) * ((l.length - 1 : ℕ) : ℚ)
         let lower := (⌊pos⌋).toNat
         let upper := (⌈pos⌉).toNat
         let weight := pos - (lower : ℚ)
         l.getD lower 0 * (1 - weight) + l.getD upper 0 * weight)) ∧
    percentile [10, 20, 30, 40] 50 = 25 ∧
    percentile [10, 20, 30, 40] 90 = 37 ∧
    percentile [10, 20, 30, 40] 100 = 40 := by
  have hlen0 : l.length ≠ 0 := fun h => hne (List.length_eq_zero.mp h)
  refine ⟨fun hp => ?_, fun hp => ?_, fun hp1 hp2 => ?_, ?_, ?_, ?_⟩
  · rw [show percentile l p = l.getD 0 0 from by
      unfold percentile
      rw [if_neg hlen0, if_pos hp]]
    exact ⟨getD_head_mem l hne, sorted_head_le l hs⟩
  · rw [show percentile l p = l.getD (l.length - 1) 0 from by
      unfold percentile
      rw [if_neg hlen0, if_neg (by linarith), if_pos hp]]
    exact ⟨getD_last_mem l hne, sorted_le_last l hs⟩
  · unfold percentile
    rw [if_neg hlen0, if_neg (by linarith), if_neg (by linarith)]
    dsimp only
    split
    case isTrue heq =>
      rw [heq]
      ring
    case isFalse hneq => rfl
  · have hc : (⌈(3 : ℚ) / 2⌉).toNat = 2 := by
      rw [show (⌈(3 : ℚ) / 2⌉) = 2 from by rw [Int.ceil_eq_iff]; norm_num]
      rfl
    norm_num [percentile, List.getD, hc]
  · have hc : (⌈(27 : ℚ) / 10⌉).toNat = 3 := by
      rw [show (⌈(27 : ℚ) / 10⌉) = 3 from by rw [Int.ceil_eq_iff]; norm_num]
      rfl
    norm_num [percentile, List.getD, hc, show Int.toNat 2 = 2 from rfl]
  · norm_num [percentile, List.getD]

/-- Witness for C2 on the sorted sample `[10, 20, 30, 40]` at `p = 90`. -/
theorem claim_C2_percentile_interpolation_witness :
    percentile [10, 20, 30, 40] 90 = 37 :=
  (claim_C2_percentile_interpolation [10, 20, 30, 40] 90
    (by norm_num [List.sorted_cons]) (List.cons_ne_nil _ _)).2.2.2.2.1

/-! ## Statistics aggregator (`Stats` of the extended variant) -/

/-- Per-packet record owned by the aggregator, from `PacketRecord` in the
source (extended variant). -/
structure PacketRecord where
  SeqNum : Nat
  SentTime : ℤ
  RecvTime : ℤ
  LatencyMs : ℚ
  ServerProcMs : ℚ
  NetLatencyMs : ℚ
  Lost : Bool
  Late : Bool
deriving DecidableEq

/-- Lookup in the sequence-number map, modelling a read of the Go map
`records[seqNum]`. -/
def mapLookup (l : List (Nat × PacketRecord)) (k : Nat) : Option PacketRecord :=
  match l with
  | [] => none
  | (k2, v) :: t => if k2 = k then some v else mapLookup t k

/-- Insertion into the sequence-number map, modelling the Go map write
`records[seqNum] = r`: overwrite an existing entry, otherwise add one. -/
def mapInsert (l : List (Nat × PacketRecord)) (k : Nat) (v : PacketRecord) :
    List (Nat × PacketRecord) :=
  match l with
  | [] => [(k, v)]
  | (k2, v2) :: t => if k2 = k then (k, v) :: t else (k2, v2) :: mapInsert t k v

/-- State of the `Stats` aggregator of the extended variant: the per-sequence
record map, lifetime counters and streaming aggregates, and the current
reporting window.  The mutex and the two wall-clock bookkeeping fields
(`lastPrintTime`, `startTime`) of the source have no observable effect on
the recorded data and are not part of the state. -/
structure Stats where
  records : List (Nat × PacketRecord)
  sent : Nat
  received : Nat
  late : Nat
  lateThreshold : ℚ
  latencies : List ℚ
  netLatencies : List ℚ
  serverProc : List ℚ
  minLat : ℚ
  maxLat : ℚ
  sumLat : ℚ
  minNet : ℚ
  maxNet : ℚ
  sumNet : ℚ
  minServer : ℚ
  maxServer : ℚ
  sumServer : ℚ
  windowStartNs : ℤ
  windowSent : Nat
  windowReceived : Nat
  windowLate : Nat
  windowLatencies : List ℚ
  windowNetLatency : List ℚ
  windowServerProc : List ℚ
deriving DecidableEq

/-- Fresh aggregator from `NewStats`: empty map, zero counters, running
minima seeded with `math.MaxFloat64`, window opened at the current time. -/
def NewStats (lateThreshold : ℚ) (nowNs : ℤ) : Stats :=
  { records := [], sent := 0, received := 0, late := 0
    lateThreshold := lateThreshold
    latencies := [], netLatencies := [], serverProc := []
    minLat := maxFloat64, maxLat := 0, sumLat := 0
    minNet := maxFloat64, maxNet := 0, sumNet := 0
    minServer := maxFloat64, maxServer := 0, sumServer := 0
    windowStartNs := nowNs
    windowSent := 0, windowReceived := 0, windowLate := 0
    windowLatencies := [], windowNetLatency := [], windowServerProc := [] }

/-- Operation `RecordSent`: bump the lifetime and window send counters and
store a fresh record with `Lost = true` (optimistic-lost default). -/
def Stats.RecordSent (s : Stats) (seqNum : Nat) (sentTime : ℤ) : Stats :=
  { s with
    sent := s.sent + 1
    windowSent := s.windowSent + 1
    records := mapInsert s.records seqNum
      { SeqNum := seqNum, SentTime := sentTime, RecvTime := 0, LatencyMs := 0,
        ServerProcMs := 0, NetLatencyMs := 0, Lost := true, Late := false } }

/-- Operation `RecordReceived`: a no-op when the sequence number is unknown
or the record is already resolved; otherwise fill the timing fields from the
receive time and the stamped server time, flip `Lost`, mark `Late` against
the threshold, and fold the three latency values into the counters, sample
lists, running min/max/sum, and (when the send time falls inside the current
window) the window buffers. -/
def Stats.RecordReceived (s : Stats) (seqNum : Nat) (recvTime serverProcNs : ℤ) :
    Stats :=
  match mapLookup s.records seqNum with
  | none => s
  | some record =>
    if record.Lost then
      let latencyMs : ℚ := ((recvTime - record.SentTime : ℤ) : ℚ) / 1000000
      let serverProcMs : ℚ := ((serverProcNs : ℤ) : ℚ) / 1000000
      let netPre : ℚ := latencyMs - serverProcMs
      let netLatencyMs : ℚ := if netPre < 0 then 0 else netPre
      let isLate : Bool := if latencyMs > s.lateThreshold then true else false
      let rec2 : PacketRecord :=
        { record with
          RecvTime := recvTime, LatencyMs := latencyMs,
          ServerProcMs := serverProcMs, NetLatencyMs := netLatencyMs,
          Lost := false, Late := isLate }
      let inWindow : Bool := if record.SentTime ≥ s.windowStartNs then true else false
      { s with
        records := mapInsert s.records seqNum rec2
        received := s.received + 1
        late := if isLate then s.late + 1 else s.late
        latencies := s.latencies ++ [latencyMs]
        sumLat := s.sumLat + latencyMs
        netLatencies := s.netLatencies ++ [netLatencyMs]
        sumNet := s.sumNet + netLatencyMs
        serverProc := s.serverProc ++ [serverProcMs]
        sumServer := s.sumServer + serverProcMs
        minLat := if latencyMs < s.minLat then latencyMs else s.minLat
        maxLat := if latencyMs > s.maxLat then latencyMs else s.maxLat
        minNet := if netLatencyMs < s.minNet then netLatencyMs else s.minNet
        maxNet := if netLatencyMs > s.maxNet then netLatencyMs else s.maxNet
        minServer := if serverProcMs < s.minServer then serverProcMs else s.minServer
        maxServer := if serverProcMs > s.maxServer then serverProcMs else s.maxServer
        windowReceived := if inWindow then s.windowReceived + 1 else s.windowReceived
        windowLate := if inWindow && isLate then s.windowLate + 1 else s.windowLate
        windowLatencies :=
          if inWindow then s.windowLatencies ++ [latencyMs] else s.windowLatencies
        windowNetLatency :=
          if inWindow then s.windowNetLatency ++ [netLatencyMs] else s.windowNetLatency
        windowServerProc :=
          if inWindow then s.windowServerProc ++ [serverProcMs] else s.windowServerProc }
    else s

/-- Snapshot of all records from `GetRecords` (insertion order; the Go map
iteration order is unspecified). -/
def Stats.GetRecords (s : Stats) : List PacketRecord :=
  s.records.map (fun kv => kv.2)

/-- Lost count as printed by `PrintSummary`: `sent - received` (the source
subtracts `uint64` counters; by the invariant of claim C10 the received
count never exceeds the sent count, so truncated subtraction agrees). -/
def Stats.lost (s : Stats) : Nat := s.sent - s.received

/-- Loss percentage as printed by `PrintSummary` (0 when nothing was sent). -/
def Stats.lossPercent (s : Stats) : ℚ :=
  if s.sent > 0 then ((s.lost : ℚ) / (s.sent : ℚ)) * 100 else 0

/-- Round-trip latency block of the final summary. -/
structure RttSummary where
  minLat : ℚ
  avgLat : ℚ
  maxLat : ℚ
  jitter : ℚ
  p50 : ℚ
  p90 : ℚ
  p99 : ℚ
deriving DecidableEq

/-- RTT section of `PrintSummary`: `none` models the "no data (all packets
lost)" branch taken when no latency samples exist; otherwise the lifetime
min/avg/max, mean-absolute-deviation jitter and the 50/90/99 percentiles. -/
def Stats.rttSummary (s : Stats) : Option RttSummary :=
  if s.latencies.length > 0 then
    let avgLat := s.sumLat / (s.latencies.length : ℚ)
    let jitter :=
      (s.latencies.foldl (fun acc lat => acc + |lat - avgLat|) 0) /
        (s.latencies.length : ℚ)
    let ps := percentiles s.latencies 50 90 99
    some { minLat := s.minLat, avgLat := avgLat, maxLat := s.maxLat,
           jitter := jitter, p50 := ps.1, p90 := ps.2.1, p99 := ps.2.2 }
  else none

theorem mapLookup_mapInsert_self (l : List (Nat × PacketRecord)) (k : Nat)
    (v : PacketRecord) : mapLookup (mapInsert l k v) k = some v := by
  induction l with
  | nil => simp [mapInsert, mapLookup]
  | cons h2 t ih =>
    obtain ⟨k2, v2⟩ := h2
    by_cases hk : k2 = k
    · simp [mapInsert, mapLookup, hk]
    · simp [mapInsert, mapLookup, hk, ih]

/-- C1: `RecordReceived` is a no-op — the whole aggregator state, hence the
stored record, all counters, sample lists and min/max/sum aggregates — when
the sequence number is unknown or its record is already resolved
(`Lost = false`); only the first matching receive can change the state. -/
theorem claim_C1_recordReceived_noop (s : Stats) (seqNum : Nat)
    (recvTime serverProcNs : ℤ)
    (h : ∀ r, mapLookup s.records seqNum = some r → r.Lost = false) :
    s.RecordReceived seqNum recvTime serverProcNs = s := by
  unfold Stats.RecordReceived
  cases hl : mapLookup s.records seqNum with
  | none => rfl
  | some r => simp [h r hl]

/-- Witness for C1: receiving an unknown sequence number on a fresh
aggregator changes nothing, and a second receive after a first one resolved
the record changes nothing either. -/
theorem claim_C1_recordReceived_noop_witness :
    (NewStats 100 0).RecordReceived 1 5 0 = NewStats 100 0 ∧
    (((NewStats 100 0).RecordSent 1 0).RecordReceived 1 5000000 0).RecordReceived
        1 9000000 0 =
      ((NewStats 100 0).RecordSent 1 0).RecordReceived 1 5000000 0 := by
  constructor
  · exact claim_C1_recordReceived_noop (NewStats 100 0) 1 5 0
      (fun r hr => by simp [NewStats, mapLookup] at hr)
  · refine claim_C1_recordReceived_noop _ 1 9000000 0 (fun r hr => ?_)
    rw [show (((NewStats 100 0).RecordSent 1 0).RecordReceived 1 5000000 0).records =
        mapInsert (mapInsert [] 1
          { SeqNum := 1, SentTime := 0, RecvTime := 0, LatencyMs := 0,
            ServerProcMs := 0, NetLatencyMs := 0, Lost := true, Late := false }) 1
          { SeqNum := 1, SentTime := 0, RecvTime := 5000000,
            LatencyMs := ((5000000 - 0 : ℤ) : ℚ) / 1000000,
            ServerProcMs := ((0 : ℤ) : ℚ) / 1000000,
            NetLatencyMs := ((5000000 - 0 : ℤ) : ℚ) / 1000000 - ((0 : ℤ) : ℚ) / 1000000,
            Lost := false, Late := false } from ?records] at hr
    · rw [mapLookup_mapInsert_self] at hr
      cases hr
      rfl
    case records =>
      show (Stats.RecordReceived _ 1 5000000 0).records = _
      unfold Stats.RecordReceived
      rw [show mapLookup ((NewStats 100 0).RecordSent 1 0).records 1 =
          some { SeqNum := 1, SentTime := 0, RecvTime := 0, LatencyMs := 0,
                 ServerProcMs := 0, NetLatencyMs := 0, Lost := true, Late := false }
          from rfl]
      simp only [if_true]
      norm_num [NewStats, Stats.RecordSent, mapInsert]

/-- C9: a receive that resolves a record stores
`netLatencyMs = max 0 (latencyMs - serverProcMs)`, so the stored
`NetLatencyMs` is never negative. -/
theorem claim_C9_net_latency_floored (s : Stats) (seqNum : Nat)
    (recvTime serverProcNs : ℤ) (r : PacketRecord)
    (hl : mapLookup s.records seqNum = some r) (hLost : r.Lost = true) :
    ∃ r2, mapLookup (s.RecordReceived seqNum recvTime serverProcNs).records seqNum =
        some r2 ∧
      r2.LatencyMs = ((recvTime - r.SentTime : ℤ) : ℚ) / 1000000 ∧
      r2.ServerProcMs = ((serverProcNs : ℤ) : ℚ) / 1000000 ∧
      r2.NetLatencyMs = max 0 (r2.LatencyMs - r2.ServerProcMs) ∧
      0 ≤ r2.NetLatencyMs := by
  unfold Stats.RecordReceived
  rw [hl]
  simp only [hLost, if_true]
  refine ⟨{ r with
            RecvTime := recvTime,
            LatencyMs := ((recvTime - r.SentTime : ℤ) : ℚ) / 1000000,
            ServerProcMs := ((serverProcNs : ℤ) : ℚ) / 1000000,
            NetLatencyMs :=
              if ((recvTime - r.SentTime : ℤ) : ℚ) / 1000000 -
                  ((serverProcNs : ℤ) : ℚ) / 1000000 < 0 then 0
              else ((recvTime - r.SentTime : ℤ) : ℚ) / 1000000 -
                ((serverProcNs : ℤ) : ℚ) / 1000000,
            Lost := false,
            Late :=
              if ((recvTime - r.SentTime : ℤ) : ℚ) / 1000000 > s.lateThreshold
              then true else false },
    mapLookup_mapInsert_self s.records seqNum _, rfl, rfl, ?_, ?_⟩
  · show (if _ < (0 : ℚ) then (0 : ℚ) else _) = _
    split
    case isTrue hlt => rw [max_eq_left (le_of_lt hlt)]
    case isFalse hge => rw [max_eq_right (le_of_not_lt hge)]
  · show (0 : ℚ) ≤ if _ < (0 : ℚ) then (0 : ℚ) else _
    split
    case isTrue hlt => exact le_refl 0
    case isFalse hge => exact le_of_not_lt hge

/-- Witness for C9 on a fresh aggregator: one send, then a receive with a
server-processing stamp larger than the round trip, so the floor at zero
fires. -/
theorem claim_C9_net_latency_floored_witness :
    ∃ r2, mapLookup (((NewStats 100 0).RecordSent 1 0).RecordReceived
        1 5000000 8000000).records 1 = some r2 ∧
      r2.LatencyMs = ((5000000 - 0 : ℤ) : ℚ) / 1000000 ∧
      r2.ServerProcMs = ((8000000 : ℤ) : ℚ) / 1000000 ∧
      r2.NetLatencyMs = max 0 (r2.LatencyMs - r2.ServerProcMs) ∧
      0 ≤ r2.NetLatencyMs :=
  claim_C9_net_latency_floored ((NewStats 100 0).RecordSent 1 0) 1 5000000 8000000
    { SeqNum := 1, SentTime := 0, RecvTime := 0, LatencyMs := 0,
      ServerProcMs := 0, NetLatencyMs := 0, Lost := true, Late := false }
    rfl rfl

/-! ## Interleavings of sends and receives (claim C10) -/

/-- Aggregator operation: either `RecordSent` from the sender loop or
`RecordReceived` from the receiver loop. -/
inductive Op where
  | sent (seq : Nat) (time : ℤ)
  | recv (seq : Nat) (time : ℤ) (proc : ℤ)
deriving DecidableEq

/-- Application of one operation to the aggregator state. -/
def applyOp (s : Stats) : Op → Stats
  | .sent seq time => s.RecordSent seq time
  | .recv seq time proc => s.RecordReceived seq time proc

/-- Sequential application of a list of operations (the mutex in the source
serialises all map and counter accesses, so every concurrent execution is
one such sequence). -/
def runOps (s : Stats) (ops : List Op) : Stats := ops.foldl applyOp s

/-- Sequence number of a send operation. -/
def Op.sentSeq : Op → Option Nat
  | .sent seq _ => some seq
  | .recv _ _ _ => none

/-- Sequence numbers of all send operations, in order. -/
def sentSeqs (ops : List Op) : List Nat := ops.filterMap Op.sentSeq

/-- Keys of the record map. -/
def mapKeys (l : List (Nat × PacketRecord)) : List Nat := l.map (fun kv => kv.1)

theorem mapInsert_of_not_mem (l : List (Nat × PacketRecord)) (k : Nat)
    (v : PacketRecord) (h : k ∉ mapKeys l) : mapInsert l k v = l ++ [(k, v)] := by
  induction l with
  | nil => rfl
  | cons kv t ih =>
    obtain ⟨k2, v2⟩ := kv
    have hk : k2 ≠ k := by
      intro he
      exact h (by simp [mapKeys, he])
    simp only [mapInsert, if_neg hk, List.cons_append, List.cons.injEq, true_and]
    exact ih (fun hm => h (by simp [mapKeys] at hm ⊢; exact Or.inr hm))

theorem mapKeys_mapInsert_of_lookup (l : List (Nat × PacketRecord)) (k : Nat)
    (r v : PacketRecord) (hl : mapLookup l k = some r) :
    mapKeys (mapInsert l k v) = mapKeys l := by
  induction l with
  | nil => simp [mapLookup] at hl
  | cons kv t ih =>
    obtain ⟨k2, v2⟩ := kv
    by_cases hk : k2 = k
    · subst hk
      simp [mapInsert, mapKeys]
    · rw [mapLookup, if_neg hk] at hl
      simp only [mapInsert, if_neg hk, mapKeys, List.map_cons]
      rw [show List.map (fun kv => kv.1) (mapInsert t k v) = mapKeys (mapInsert t k v)
        from rfl, ih hl]
      rfl

theorem length_mapInsert_of_lookup (l : List (Nat × PacketRecord)) (k : Nat)
    (r v : PacketRecord) (hl : mapLookup l k = some r) :
    (mapInsert l k v).length = l.length := by
  have := mapKeys_mapInsert_of_lookup l k r v hl
  have h1 : (mapInsert l k v).length = (mapKeys (mapInsert l k v)).length := by
    simp [mapKeys]
  have h2 : l.length = (mapKeys l).length := by simp [mapKeys]
  rw [h1, h2, this]

theorem countP_notLost_mapInsert (l : List (Nat × PacketRecord)) (k : Nat)
    (r v : PacketRecord) (hl : mapLookup l k = some r) :
    (mapInsert l k v).countP (fun kv => !kv.2.Lost) + (cond r.Lost 0 1) =
      l.countP (fun kv => !kv.2.Lost) + (cond v.Lost 0 1) := by
  induction l with
  | nil => simp [mapLookup] at hl
  | cons kv t ih =>
    obtain ⟨k2, v2⟩ := kv
    by_cases hk : k2 = k
    · rw [mapLookup, if_pos hk] at hl
      cases hl
      simp only [mapInsert, if_pos hk, List.countP_cons]
      cases hv : v.Lost <;> cases hr : r.Lost <;> simp [hv, hr]
    · rw [mapLookup, if_neg hk] at hl
      simp only [mapInsert, if_neg hk, List.countP_cons]
      have := ih hl
      omega

theorem countP_notLost_mapInsert_eq (l : List (Nat × PacketRecord)) (k : Nat)
    (r v : PacketRecord) (hl : mapLookup l k = some r) :
    (mapInsert l k v).countP (fun kv => !kv.2.Lost) =
      l.countP (fun kv => !kv.2.Lost) + (cond v.Lost 0 1) - (cond r.Lost 0 1) := by
  have h := countP_notLost_mapInsert l k r v hl
  omega

/-- The invariant of claim C10 over the aggregator state. -/
def statsInv (s : Stats) : Prop :=
  s.received = s.records.countP (fun kv => !kv.2.Lost) ∧
  s.received = s.latencies.length ∧
  s.sent = s.records.length

theorem statsInv_recordSent (s : Stats) (seq : Nat) (time : ℤ)
    (h : statsInv s) (hfresh : seq ∉ mapKeys s.records) :
    statsInv (s.RecordSent seq time) ∧
      mapKeys (s.RecordSent seq time).records = mapKeys s.records ++ [seq] := by
  obtain ⟨h1, h2, h3⟩ := h
  unfold Stats.RecordSent
  rw [mapInsert_of_not_mem s.records seq _ hfresh]
  refine ⟨⟨?_, h2, ?_⟩, ?_⟩
  · simp only [List.countP_append, List.countP_cons, List.countP_nil]
    simpa using h1
  · simp [h3]
  · simp [mapKeys]

theorem statsInv_recordReceived (s : Stats) (seq : Nat) (time proc : ℤ)
    (h : statsInv s) :
    statsInv (s.RecordReceived seq time proc) ∧
      mapKeys (s.RecordReceived seq time proc).records = mapKeys s.records := by
  obtain ⟨h1, h2, h3⟩ := h
  unfold Stats.RecordReceived
  cases hl : mapLookup s.records seq with
  | none => exact ⟨⟨h1, h2, h3⟩, rfl⟩
  | some r =>
    cases hLost : r.Lost with
    | false => simp only [hLost, if_false]; exact ⟨⟨h1, h2, h3⟩, rfl⟩
    | true =>
      simp only [hLost, if_true]
      refine ⟨⟨?_, ?_, ?_⟩, ?_⟩
      · rw [countP_notLost_mapInsert_eq s.records seq r _ hl, hLost]
        dsimp only
        simp only [Bool.cond_true, Bool.cond_false]
        omega
      · simp [h2]
      · exact h3.trans (length_mapInsert_of_lookup s.records seq r _ hl).symm
      · exact mapKeys_mapInsert_of_lookup s.records seq r _ hl

theorem runOps_statsInv (ops : List Op) : ∀ s : Stats, statsInv s →
    (∀ k ∈ sentSeqs ops, k ∉ mapKeys s.records) → (sentSeqs ops).Nodup →
    statsInv (runOps s ops) := by
  induction ops with
  | nil => exact fun s hs _ _ => hs
  | cons op t ih =>
    intro s hs hfresh hnd
    cases op with
    | sent seq time =>
      have hseqs : sentSeqs (Op.sent seq time :: t) = seq :: sentSeqs t := rfl
      rw [hseqs] at hfresh hnd
      have hfr : seq ∉ mapKeys s.records := hfresh seq (by simp)
      obtain ⟨hinv2, hkeys2⟩ := statsInv_recordSent s seq time hs hfr
      rw [List.nodup_cons] at hnd
      refine ih (s.RecordSent seq time) hinv2 ?_ hnd.2
      intro k hk
      rw [hkeys2]
      intro hmem
      rcases List.mem_append.mp hmem with hm | hm
      · exact hfresh k (by simp [hk]) hm
      · rw [List.mem_singleton] at hm
        exact hnd.1 (hm ▸ hk)
    | recv seq time proc =>
      have hseqs : sentSeqs (Op.recv seq time proc :: t) = sentSeqs t := rfl
      rw [hseqs] at hfresh hnd
      obtain ⟨hinv2, hkeys2⟩ := statsInv_recordReceived s seq time proc hs
      refine ih (s.RecordReceived seq time proc) hinv2 ?_ hnd
      intro k hk
      rw [hkeys2]
      exact hfresh k hk

/-- C10: after any interleaving of sends with pairwise-distinct sequence
numbers and arbitrary receives, starting from a fresh aggregator, the
received counter equals the number of stored records with `Lost = false`,
equals the length of the latency sample list, and is at most the sent
counter, which equals the number of stored records. -/
theorem claim_C10_counters_invariant (thr : ℚ) (t0 : ℤ) (ops : List Op)
    (h : (sentSeqs ops).Nodup) :
    (runOps (NewStats thr t0) ops).received =
      (runOps (NewStats thr t0) ops).records.countP (fun kv => !kv.2.Lost) ∧
    (runOps (NewStats thr t0) ops).received =
      (runOps (NewStats thr t0) ops).latencies.length ∧
    (runOps (NewStats thr t0) ops).sent =
      (runOps (NewStats thr t0) ops).records.length ∧
    (runOps (NewStats thr t0) ops).received ≤ (runOps (NewStats thr t0) ops).sent := by
  have h0 : statsInv (NewStats thr t0) := ⟨rfl, rfl, rfl⟩
  have hempty : ∀ k ∈ sentSeqs ops, k ∉ mapKeys (NewStats thr t0).records := by
    intro k _ hm
    simp [NewStats, mapKeys] at hm
  obtain ⟨h1, h2, h3⟩ := runOps_statsInv ops (NewStats thr t0) h0 hempty h
  refine ⟨h1, h2, h3, ?_⟩
  rw [h1, h3]
  exact List.countP_le_length _

/-- Witness for C10: two sends, one matching receive, one receive for an
unknown sequence number. -/
theorem claim_C10_counters_invariant_witness :
    (runOps (NewStats 100 0)
        [Op.sent 1 0, Op.sent 2 0, Op.recv 1 5000000 0, Op.recv 3 1 0]).received =
      (runOps (NewStats 100 0)
        [Op.sent 1 0, Op.sent 2 0, Op.recv 1 5000000 0, Op.recv 3 1 0]).records.countP
          (fun kv => !kv.2.Lost) ∧
    (runOps (NewStats 100 0)
        [Op.sent 1 0, Op.sent 2 0, Op.recv 1 5000000 0, Op.recv 3 1 0]).received =
      (runOps (NewStats 100 0)
        [Op.sent 1 0, Op.sent 2 0, Op.recv 1 5000000 0, Op.recv 3 1 0]).latencies.length ∧
    (runOps (NewStats 100 0)
        [Op.sent 1 0, Op.sent 2 0, Op.recv 1 5000000 0, Op.recv 3 1 0]).sent =
      (runOps (NewStats 100 0)
        [Op.sent 1 0, Op.sent 2 0, Op.recv 1 5000000 0, Op.recv 3 1 0]).records.length ∧
    (runOps (NewStats 100 0)
        [Op.sent 1 0, Op.sent 2 0, Op.recv 1 5000000 0, Op.recv 3 1 0]).received ≤
      (runOps (NewStats 100 0)
        [Op.sent 1 0, Op.sent 2 0, Op.recv 1 5000000 0, Op.recv 3 1 0]).sent :=
  claim_C10_counters_invariant 100 0
    [Op.sent 1 0, Op.sent 2 0, Op.recv 1 5000000 0, Op.recv 3 1 0]
    (by simp [sentSeqs, Op.sentSeq, List.filterMap])

/-! ## Scenario: ten packets sent, none answered (claim C7) -/

/-- Ten sends with sequence numbers 1..10 and no receive. -/
def tenSentOps : List Op := (List.range 10).map (fun i => Op.sent (i + 1) 0)

/-- Aggregator state after the ten unanswered sends. -/
def tenSentState : Stats := runOps (NewStats 100 0) tenSentOps

/-- C7: after 10 sends and no matching receive the final summary reports
`sent = 10`, `received = 0`, `lost = 10`, `lossPercent = 100`, the RTT
summary is the "no data" branch, and `GetRecords` returns exactly the 10
records, each with `Lost = true` and `RecvTime` unset (0). -/
theorem claim_C7_all_lost_summary :
    tenSentState.sent = 10 ∧
    tenSentState.received = 0 ∧
    tenSentState.lost = 10 ∧
    tenSentState.lossPercent = 100 ∧
    tenSentState.rttSummary = none ∧
    tenSentState.GetRecords.length = 10 ∧
    tenSentState.GetRecords.all (fun r => r.Lost && (r.RecvTime == 0)) = true ∧
    tenSentState.GetRecords.map (fun r => r.SeqNum) =
      [1, 2, 3, 4, 5, 6, 7, 8, 9, 10] := by
  refine ⟨rfl, rfl, rfl, ?_, rfl, rfl, rfl, rfl⟩
  have hs : tenSentState.sent = 10 := rfl
  have hr : tenSentState.received = 0 := rfl
  simp only [Stats.lossPercent, Stats.lost, hs, hr]
  norm_num

/-! ## Scenario: five packets with latencies 10..50 ms (claim C8) -/

/-- Five sends at time 0 followed by five matching receives whose round
trips are 10, 20, 30, 40, 50 milliseconds. -/
def fiveOps : List Op :=
  (List.range 5).map (fun i => Op.sent (i + 1) 0) ++
    (List.range 5).map (fun i => Op.recv (i + 1) (((i : ℤ) + 1) * 10000000) 0)

/-- Aggregator state after the five answered sends. -/
def fiveState : Stats := runOps (NewStats 100 0) fiveOps

theorem fiveState_latencies : fiveState.latencies = [10, 20, 30, 40, 50] := by
  norm_num [fiveState, fiveOps, runOps, applyOp, Stats.RecordSent,
    Stats.RecordReceived, NewStats, mapInsert, mapLookup, maxFloat64,
    List.range_succ]

/-- C8: jitter is the mean absolute deviation from the mean: it is 0 on the
constant sample `[50, 50, 50]`, 5 on `[10, 20]`, and for the five recorded
latencies `[10, 20, 30, 40, 50]` the final summary reports `minLat = 10`,
`avgLat = 30`, `maxLat = 50` and `jitter = 12`. -/
theorem claim_C8_jitter_mean_abs_deviation :
    calcStats [50, 50, 50] = (50, 50, 50, 0) ∧
    (calcStats [10, 20]).2.2.2 = 5 ∧
    fiveState.rttSummary.map (fun rs => rs.minLat) = some 10 ∧
    fiveState.rttSummary.map (fun rs => rs.avgLat) = some 30 ∧
    fiveState.rttSummary.map (fun rs => rs.maxLat) = some 50 ∧
    fiveState.rttSummary.map (fun rs => rs.jitter) = some 12 := by
  have hmin : fiveState.minLat = 10 := by
    norm_num [fiveState, fiveOps, runOps, applyOp, Stats.RecordSent,
      Stats.RecordReceived, NewStats, mapInsert, mapLookup, maxFloat64,
      List.range_succ]
  have hmax : fiveState.maxLat = 50 := by
    norm_num [fiveState, fiveOps, runOps, applyOp, Stats.RecordSent,
      Stats.RecordReceived, NewStats, mapInsert, mapLookup, maxFloat64,
      List.range_succ]
  have hsum : fiveState.sumLat = 150 := by
    norm_num [fiveState, fiveOps, runOps, applyOp, Stats.RecordSent,
      Stats.RecordReceived, NewStats, mapInsert, mapLookup, maxFloat64,
      List.range_succ]
  refine ⟨?_, ?_, ?_, ?_, ?_, ?_⟩
  · norm_num [calcStats, maxFloat64]
  · norm_num [calcStats, maxFloat64]
  · simp only [Stats.rttSummary, fiveState_latencies, hmin]
    norm_num
  · simp only [Stats.rttSummary, fiveState_latencies, hsum]
    norm_num
  · simp only [Stats.rttSummary, fiveState_latencies, hmax]
    norm_num
  · simp only [Stats.rttSummary, fiveState_latencies, hsum]
    norm_num

/-! ## CSV export (`saveCSV` of the extended variant, claim C5) -/

/-- One serialized CSV cell; each constructor mirrors the `strconv` call the
source uses for that column. -/
inductive CsvCell where
  | uint (n : Nat)
  | int (i : ℤ)
  | float (q : ℚ)
  | bool (b : Bool)
deriving DecidableEq

/-- Header row written by `saveCSV` in the extended variant. -/
def csvHeader : List String :=
  ["seq", "sent_time", "recv_time", "latency_ms", "lost", "late"]

/-- Data row written by `saveCSV` for one record: sequence number, the two
timestamps divided by 1000000 (Go `int64` division truncates toward zero,
"convert to milliseconds"), the latency, and the two flags. -/
def csvRow (r : PacketRecord) : List CsvCell :=
  [CsvCell.uint r.SeqNum,
   CsvCell.int (r.SentTime.tdiv 1000000),
   CsvCell.int (r.RecvTime.tdiv 1000000),
   CsvCell.float r.LatencyMs,
   CsvCell.bool r.Lost,
   CsvCell.bool r.Late]

/-- CSV file content: the header line and one row per record. -/
structure CsvFile where
  header : List String
  rows : List (List CsvCell)
deriving DecidableEq

/-- The extended `saveCSV`: header plus one row per record of `GetRecords`. -/
def saveCSV (s : Stats) : CsvFile :=
  { header := csvHeader, rows := s.GetRecords.map csvRow }

/-- Counterexample to C5 as stated: the CSV export of the extended variant
does not contain a `server_proc_ms` or a `net_latency_ms` column (its header
is exactly `seq, sent_time, recv_time, latency_ms, lost, late`), shown here
on the export of the ten-packet scenario state. -/
theorem claim_C5_counterexample :
    "server_proc_ms" ∉ (saveCSV tenSentState).header ∧
    "net_latency_ms" ∉ (saveCSV tenSentState).header := by
  constructor <;> decide

/-- C5 (amended): the extended CSV export has exactly the columns
`seq, sent_time, recv_time, latency_ms, lost, late` — `late` beyond the
basic five, but no `server_proc_ms` or `net_latency_ms` column even though
the aggregator records those quantities — and the two timestamp columns are
serialized in milliseconds since epoch (nanoseconds divided by 1000000). -/
theorem claim_C5_csv_columns (s : Stats) :
    (saveCSV s).header =
      ["seq", "sent_time", "recv_time", "latency_ms", "lost", "late"] ∧
    "server_proc_ms" ∉ (saveCSV s).header ∧
    "net_latency_ms" ∉ (saveCSV s).header ∧
    (saveCSV s).rows.length = s.GetRecords.length ∧
    (∀ r ∈ s.GetRecords,
      csvRow r =
        [CsvCell.uint r.SeqNum,
         CsvCell.int (r.SentTime.tdiv 1000000),
         CsvCell.int (r.RecvTime.tdiv 1000000),
         CsvCell.float r.LatencyMs,
         CsvCell.bool r.Lost,
         CsvCell.bool r.Late]) := by
  refine ⟨rfl, (by decide : "server_proc_ms" ∉ csvHeader),
    (by decide : "net_latency_ms" ∉ csvHeader), ?_, fun r _ => rfl⟩
  simp [saveCSV]

/-- Witness for C5 (amended) on the ten-packet scenario state. -/
theorem claim_C5_csv_columns_witness :
    (saveCSV tenSentState).header =
      ["seq", "sent_time", "recv_time", "latency_ms", "lost", "late"] ∧
    "server_proc_ms" ∉ (saveCSV tenSentState).header ∧
    "net_latency_ms" ∉ (saveCSV tenSentState).header ∧
    (saveCSV tenSentState).rows.length = tenSentState.GetRecords.length ∧
    (∀ r ∈ tenSentState.GetRecords,
      csvRow r =
        [CsvCell.uint r.SeqNum,
         CsvCell.int (r.SentTime.tdiv 1000000),
         CsvCell.int (r.RecvTime.tdiv 1000000),
         CsvCell.float r.LatencyMs,
         CsvCell.bool r.Lost,
         CsvCell.bool r.Late]) :=
  claim_C5_csv_columns tenSentState

/-! ## Plot generation from CSV content (claim C6) -/

/-- Digits of a non-empty all-digit character list as a number; `none`
otherwise. -/
def digitsToNat (cs : List Char) : Option Nat :=
  if cs.isEmpty then none
  else if cs.all (fun c => c.isDigit) then
    some (cs.foldl (fun acc c => acc * 10 + (c.toNat - 48)) 0)
  else none

/-- Modelled from the spec: the plot generator parses the `latency_ms` (and
optional `net_latency_ms`, `server_proc_ms`) cells with Go
`strconv.ParseFloat`, a standard-library routine outside this repository;
this model covers the plain decimal literals the repository's own CSV
writer produces (optional minus sign, digits, optional fraction digits). -/
def parseFloatQ (s : String) : Option ℚ :=
  let cs := s.data
  let neg := match cs with
    | '-' :: _ => true
    | _ => false
  let cs2 := match cs with
    | '-' :: t => t
    | _ => cs
  let ip := cs2.takeWhile (fun c => c != '.')
  let rest := cs2.dropWhile (fun c => c != '.')
  match digitsToNat ip, rest with
  | some n, [] => some (if neg then -(n : ℚ) else (n : ℚ))
  | some n, '.' :: frac =>
    match digitsToNat frac with
    | some f =>
      let q := (n : ℚ) + (f : ℚ) / (10 : ℚ) ^ frac.length
      some (if neg then -q else q)
    | none => none
  | _, _ => none

namespace PlotFixed

/-- Per-row data extracted by the earlier `GeneratePlot` variants, which
index the CSV columns by fixed position (`record[0]`, `record[2]`,
`record[3]`, `record[4]`). -/
structure DataPoint where
  seq : String
  recvTime : String
  latency : ℚ
  lost : Bool
deriving DecidableEq

/-- Row loop of the positional `GeneratePlot`: skip the header row, skip
rows with fewer than 5 cells, read seq, recv_time, latency (0 on parse
error) and lost from the fixed positions 0, 2, 3, 4. -/
def parseRows (records : List (List String)) : List DataPoint :=
  (records.drop 1).filterMap (fun record =>
    if record.length < 5 then none
    else some
      { seq := record.getD 0 ""
        recvTime := record.getD 2 ""
        latency := (parseFloatQ (record.getD 3 "")).getD 0
        lost := record.getD 4 "" == "true" })

/-- The positional `GeneratePlot` on CSV content: error (`none`) when there
is no data row, otherwise the extracted per-packet series. -/
def GeneratePlotData (records : List (List String)) : Option (List DataPoint) :=
  if records.length < 2 then none else some (parseRows records)

end PlotFixed

namespace PlotNamed

/-- Per-row data extracted by the extended `GeneratePlot` (`plot.go`),
including the optional net-latency and server-processing series. -/
structure DataPoint where
  seq : String
  recvTime : String
  latency : ℚ
  net : Option ℚ
  server : Option ℚ
  lost : Bool
deriving DecidableEq

/-- Whitespace trimming of a cell, as Go `strings.TrimSpace` applied to the
header cells. -/
def trimSpace (s : String) : String :=
  String.mk (((s.data.dropWhile Char.isWhitespace).reverse.dropWhile
    Char.isWhitespace).reverse)

/-- Column index for a header name: the source fills a map
`colIndex[strings.TrimSpace(col)] = i` over the header cells in order, so
for a duplicated name the last occurrence wins. -/
def colIndex (header : List String) (name : String) : Option Nat :=
  ((List.range header.length).filter
    (fun i => trimSpace (header.getD i "") == name)).getLast?

/-- Parse of one data row given the resolved column indices: skip the row
when a required index is out of range; the latency falls back to 0 on parse
error; the optional columns yield `none` when absent, out of range, or
unparsable. -/
def rowPoint (seqIdx recvIdx latIdx lostIdx : Nat) (netIdx serverIdx : Option Nat)
    (record : List String) : Option DataPoint :=
  if seqIdx < record.length ∧ recvIdx < record.length ∧
      latIdx < record.length ∧ lostIdx < record.length then
    some
      { seq := record.getD seqIdx ""
        recvTime := record.getD recvIdx ""
        latency := (parseFloatQ (record.getD latIdx "")).getD 0
        net :=
          match netIdx with
          | some ni => if ni < record.length then parseFloatQ (record.getD ni "") else none
          | none => none
        server :=
          match serverIdx with
          | some si => if si < record.length then parseFloatQ (record.getD si "") else none
          | none => none
        lost := record.getD lostIdx "" == "true" }
  else none

/-- The name-based `GeneratePlot` of `plot.go` on CSV content: error when
there is no data row or a required column (`seq`, `recv_time`,
`latency_ms`, `lost`) is missing from the header; otherwise the extracted
per-packet series with columns resolved by header name. -/
def GeneratePlotData (records : List (List String)) : Option (List DataPoint) :=
  if records.length < 2 then none
  else
    match records with
    | [] => none
    | header :: rows =>
      match colIndex header "seq", colIndex header "recv_time",
          colIndex header "latency_ms", colIndex header "lost" with
      | some seqIdx, some recvIdx, some latIdx, some lostIdx =>
        some (rows.filterMap (rowPoint seqIdx recvIdx latIdx lostIdx
          (colIndex header "net_latency_ms") (colIndex header "server_proc_ms")))
      | _, _, _, _ => none

end PlotNamed

/-- Concrete CSV content in the writer's column order. -/
def csvContentA : List (List String) :=
  [["seq", "sent_time", "recv_time", "latency_ms", "lost"],
   ["1", "0", "7", "5.00", "false"]]

/-- The same CSV content with the `lost` column moved to the front. -/
def csvContentB : List (List String) :=
  [["lost", "seq", "sent_time", "recv_time", "latency_ms"],
   ["false", "1", "0", "7", "5.00"]]

/-- Counterexample to C6 as stated: the `GeneratePlot` of the cited earlier
variants reads cells at fixed positions, so the same columns in a different
order produce a different report: moving the `lost` column to the front
makes it read `seq = "false"` instead of `seq = "1"`. -/
theorem claim_C6_counterexample :
    PlotFixed.GeneratePlotData csvContentA ≠ PlotFixed.GeneratePlotData csvContentB := by
  intro h
  have h2 := congrArg
    (fun o => Option.map (List.map (fun d => PlotFixed.DataPoint.seq d)) o) h
  simp [PlotFixed.GeneratePlotData, PlotFixed.parseRows, csvContentA,
    csvContentB] at h2

/-! ## Column-order independence of the name-based plot variant -/

/-- Reordering of a CSV line by a column permutation: entry `j` of the
result is entry `f j` of the original line. -/
def reorder (n : Nat) (f : Fin n → Fin n) (r : List String) : List String :=
  List.ofFn (fun j => r.getD (f j) "")

/-- Action of the inverse column permutation on a (Nat-valued) column
index. -/
def permNat (n : Nat) (e : Fin n ≃ Fin n) (x : Nat) : Nat :=
  if hx : x < n then (e.symm ⟨x, hx⟩ : Fin n) else x

theorem reorder_length (n : Nat) (f : Fin n → Fin n) (r : List String) :
    (reorder n f r).length = n := by
  simp [reorder]

theorem reorder_getD (n : Nat) (f : Fin n → Fin n) (r : List String)
    (j : Nat) (hj : j < n) :
    (reorder n f r).getD j "" = r.getD (f ⟨j, hj⟩) "" := by
  have hj2 : j < (reorder n f r).length := by
    rw [reorder_length]
    exact hj
  rw [List.getD_eq_getElem _ _ hj2]
  exact List.getElem_ofFn _ _ _

theorem nodup_all_eq_singleton (l : List Nat) (i : Nat) (hnd : l.Nodup)
    (hall : ∀ x ∈ l, x = i) (hmem : i ∈ l) : l = [i] := by
  cases l with
  | nil => simp at hmem
  | cons a t =>
    have ha : a = i := hall a (by simp)
    subst ha
    cases t with
    | nil => rfl
    | cons b u =>
      have hb : b = a := hall b (by simp)
      rw [List.nodup_cons] at hnd
      exfalso
      apply hnd.1
      rw [← hb]
      exact List.mem_cons_self b u

theorem trim_getD_inj (header : List String)
    (hnd : (header.map PlotNamed.trimSpace).Nodup) (x y : Nat)
    (hx : x < header.length) (hy : y < header.length)
    (h : PlotNamed.trimSpace (header.getD x "") =
      PlotNamed.trimSpace (header.getD y "")) : x = y := by
  have hx2 : x < (header.map PlotNamed.trimSpace).length := by simpa using hx
  have hy2 : y < (header.map PlotNamed.trimSpace).length := by simpa using hy
  have hg : (header.map PlotNamed.trimSpace).get ⟨x, hx2⟩ =
      (header.map PlotNamed.trimSpace).get ⟨y, hy2⟩ := by
    rw [List.getD_eq_getElem _ _ hx, List.getD_eq_getElem _ _ hy] at h
    simpa using h
  have := (List.Nodup.get_inj_iff hnd).mp hg
  simpa using this

theorem colIndex_eq_some_iff (header : List String) (name : String)
    (hnd : (header.map PlotNamed.trimSpace).Nodup) (i : Nat) :
    PlotNamed.colIndex header name = some i ↔
      i < header.length ∧ PlotNamed.trimSpace (header.getD i "") = name := by
  unfold PlotNamed.colIndex
  constructor
  · intro h
    have hm := List.mem_of_mem_getLast? h
    obtain ⟨hr, hp⟩ := List.mem_filter.mp hm
    exact ⟨List.mem_range.mp hr, by simpa using hp⟩
  · rintro ⟨hi, heq⟩
    have hfil : i ∈ (List.range header.length).filter
        (fun j => PlotNamed.trimSpace (header.getD j "") == name) :=
      List.mem_filter.mpr ⟨List.mem_range.mpr hi, by rw [heq]; simp⟩
    have hndf := (List.nodup_range header.length).filter
      (fun j => PlotNamed.trimSpace (header.getD j "") == name)
    have hall : ∀ x ∈ (List.range header.length).filter
        (fun j => PlotNamed.trimSpace (header.getD j "") == name), x = i := by
      intro x hx
      obtain ⟨hxr, hxp⟩ := List.mem_filter.mp hx
      refine trim_getD_inj header hnd x i (List.mem_range.mp hxr) hi ?_
      rw [heq]
      simpa using hxp
    rw [nodup_all_eq_singleton _ i hndf hall hfil]
    rfl

theorem colIndex_eq_none_iff (header : List String) (name : String) :
    PlotNamed.colIndex header name = none ↔
      ∀ i, i < header.length → PlotNamed.trimSpace (header.getD i "") ≠ name := by
  unfold PlotNamed.colIndex
  rw [List.getLast?_eq_none_iff, List.filter_eq_nil_iff]
  constructor
  · intro h i hi heq
    exact h i (List.mem_range.mpr hi) (by rw [heq]; simp)
  · intro h i hir hp
    exact h i (List.mem_range.mp hir) (by simpa using hp)

theorem colIndex_lt (header : List String) (name : String) (i : Nat)
    (h : PlotNamed.colIndex header name = some i) : i < header.length :=
  List.mem_range.mp
    (List.mem_filter.mp (List.mem_of_mem_getLast? h)).1

theorem reorder_trim_nodup (header : List String)
    (e : Fin header.length ≃ Fin header.length)
    (hnd : (header.map PlotNamed.trimSpace).Nodup) :
    ((reorder header.length (fun j => e j) header).map PlotNamed.trimSpace).Nodup := by
  rw [reorder, List.map_ofFn]
  refine List.nodup_ofFn.mpr ?_
  intro j1 j2 hj
  simp only [Function.comp] at hj
  have := trim_getD_inj header hnd (e j1) (e j2) (e j1).2 (e j2).2 hj
  exact e.injective (Fin.ext this)

theorem colIndex_reorder (header : List String)
    (e : Fin header.length ≃ Fin header.length)
    (hnd : (header.map PlotNamed.trimSpace).Nodup) (name : String) :
    PlotNamed.colIndex (reorder header.length (fun j => e j) header) name =
      (PlotNamed.colIndex header name).map (permNat header.length e) := by
  cases hci : PlotNamed.colIndex header name with
  | none =>
    rw [Option.map_none']
    rw [colIndex_eq_none_iff] at hci ⊢
    intro j hj heq
    rw [reorder_length] at hj
    rw [reorder_getD header.length _ header j hj] at heq
    exact hci (e ⟨j, hj⟩) (e ⟨j, hj⟩).2 heq
  | some i =>
    obtain ⟨hi, heq⟩ := (colIndex_eq_some_iff header name hnd i).mp hci
    rw [Option.map_some']
    rw [colIndex_eq_some_iff _ name (reorder_trim_nodup header e hnd)]
    unfold permNat
    rw [dif_pos hi]
    refine ⟨by rw [reorder_length]; exact (e.symm ⟨i, hi⟩).2, ?_⟩
    rw [reorder_getD header.length _ header _ (e.symm ⟨i, hi⟩).2]
    rw [show (⟨(e.symm ⟨i, hi⟩ : Fin header.length), (e.symm ⟨i, hi⟩).2⟩ :
      Fin header.length) = e.symm ⟨i, hi⟩ from Fin.eta _ _]
    rw [Equiv.apply_symm_apply]
    exact heq

theorem rowPoint_reorder (n : Nat) (e : Fin n ≃ Fin n) (r : List String)
    (hr : r.length = n) (seqIdx recvIdx latIdx lostIdx : Nat)
    (netIdx serverIdx : Option Nat)
    (hs : seqIdx < n) (hre : recvIdx < n) (hla : latIdx < n) (hlo : lostIdx < n)
    (hnet : ∀ x ∈ netIdx, x < n) (hserver : ∀ x ∈ serverIdx, x < n) :
    PlotNamed.rowPoint (permNat n e seqIdx) (permNat n e recvIdx)
        (permNat n e latIdx) (permNat n e lostIdx)
        (netIdx.map (permNat n e)) (serverIdx.map (permNat n e))
        (reorder n (fun j => e j) r) =
      PlotNamed.rowPoint seqIdx recvIdx latIdx lostIdx netIdx serverIdx r := by
  have hperm : ∀ x : Nat, ∀ hx : x < n,
      (reorder n (fun j => e j) r).getD (permNat n e x) "" = r.getD x "" := by
    intro x hx
    unfold permNat
    rw [dif_pos hx]
    rw [reorder_getD n _ r _ (e.symm ⟨x, hx⟩).2]
    rw [show (⟨(e.symm ⟨x, hx⟩ : Fin n), (e.symm ⟨x, hx⟩).2⟩ : Fin n) =
      e.symm ⟨x, hx⟩ from Fin.eta _ _]
    rw [Equiv.apply_symm_apply]
  have hpermlt : ∀ x : Nat, x < n → permNat n e x < n := by
    intro x hx
    unfold permNat
    rw [dif_pos hx]
    exact (e.symm ⟨x, hx⟩).2
  unfold PlotNamed.rowPoint
  rw [if_pos (by
      rw [reorder_length]
      exact ⟨hpermlt _ hs, hpermlt _ hre, hpermlt _ hla, hpermlt _ hlo⟩)]
  rw [if_pos (by rw [hr]; exact ⟨hs, hre, hla, hlo⟩)]
  rw [Option.some.injEq, PlotNamed.DataPoint.mk.injEq]
  refine ⟨hperm _ hs, hperm _ hre, by rw [hperm _ hla], ?_, ?_, by rw [hperm _ hlo]⟩
  · cases netIdx with
    | none => rfl
    | some x =>
      have hx := hnet x (by simp)
      simp only [Option.map_some']
      rw [if_pos (by rw [reorder_length]; exact hpermlt x hx),
        if_pos (by rw [hr]; exact hx), hperm x hx]
  · cases serverIdx with
    | none => rfl
    | some x =>
      have hx := hserver x (by simp)
      simp only [Option.map_some']
      rw [if_pos (by rw [reorder_length]; exact hpermlt x hx),
        if_pos (by rw [hr]; exact hx), hperm x hx]

/-- C6 (amended): the name-based `GeneratePlot` variant (`plot.go`) locates
every column by its (trimmed) header name, so permuting the columns of a
well-formed CSV — distinct column names, rectangular rows — leaves the
extracted report data unchanged; the earlier positional variants do depend
on the column order. -/
theorem claim_C6_named_plot_column_order_independent
    (header : List String) (rows : List (List String))
    (e : Fin header.length ≃ Fin header.length)
    (hnd : (header.map PlotNamed.trimSpace).Nodup)
    (hrect : ∀ r ∈ rows, r.length = header.length) :
    PlotNamed.GeneratePlotData
        (reorder header.length (fun j => e j) header ::
          rows.map (reorder header.length (fun j => e j))) =
      PlotNamed.GeneratePlotData (header :: rows) := by
  unfold PlotNamed.GeneratePlotData
  simp only [List.length_cons, List.length_map]
  split
  case isTrue h => rfl
  case isFalse h =>
    rw [colIndex_reorder header e hnd "seq", colIndex_reorder header e hnd "recv_time",
      colIndex_reorder header e hnd "latency_ms", colIndex_reorder header e hnd "lost",
      colIndex_reorder header e hnd "net_latency_ms",
      colIndex_reorder header e hnd "server_proc_ms"]
    cases hseq : PlotNamed.colIndex header "seq" with
    | none => rfl
    | some seqIdx =>
      cases hrecv : PlotNamed.colIndex header "recv_time" with
      | none => rfl
      | some recvIdx =>
        cases hlat : PlotNamed.colIndex header "latency_ms" with
        | none => rfl
        | some latIdx =>
          cases hlost : PlotNamed.colIndex header "lost" with
          | none => rfl
          | some lostIdx =>
            simp only [Option.map_some']
            rw [List.filterMap_map]
            refine congrArg some (List.filterMap_congr ?_)
            intro r hrmem
            refine rowPoint_reorder header.length e r (hrect r hrmem)
              seqIdx recvIdx latIdx lostIdx _ _
              (colIndex_lt header "seq" seqIdx hseq)
              (colIndex_lt header "recv_time" recvIdx hrecv)
              (colIndex_lt header "latency_ms" latIdx hlat)
              (colIndex_lt header "lost" lostIdx hlost)
              ?_ ?_
            · intro x hx
              exact colIndex_lt header "net_latency_ms" x hx
            · intro x hx
              exact colIndex_lt header "server_proc_ms" x hx

/-- Witness for C6 (amended): swapping the first and last column of a
concrete five-column CSV leaves the name-based plot data unchanged. -/
theorem claim_C6_named_plot_column_order_independent_witness :
    PlotNamed.GeneratePlotData
        (reorder 5 (fun j => Equiv.swap (0 : Fin 5) (4 : Fin 5) j)
            ["seq", "sent_time", "recv_time", "latency_ms", "lost"] ::
          [["1", "0", "7", "5.00", "false"]].map
            (reorder 5 (fun j => Equiv.swap (0 : Fin 5) (4 : Fin 5) j))) =
      PlotNamed.GeneratePlotData
        (["seq", "sent_time", "recv_time", "latency_ms", "lost"] ::
          [["1", "0", "7", "5.00", "false"]]) :=
  claim_C6_named_plot_column_order_independent
    ["seq", "sent_time", "recv_time", "latency_ms", "lost"]
    [["1", "0", "7", "5.00", "false"]]
    (Equiv.swap (0 : Fin 5) (4 : Fin 5))
    (by decide)
    (by intro r hr; simp at hr; rw [hr]; rfl)

end PacketTest
